import Mathlib

/-!
Verification of the fx currency-inventory tracker's accounting core.

This file is a shallow embedding of the accounting core of the repository:
the storage layer used by the HTTP routes (class SqliteStorage in
src/server/storage.ts, tables from the shared schema in src/unnamed/part_000),
the pure helpers calculateAverageBuyPrice and calculateProfit
(src/server/storage.ts, second document), and the buy / sell / reset
route handlers (registerRoutes in src/unnamed/part_000).

Modelling conventions:
* All monetary and quantity columns (SQL DECIMAL, JS number/string) are
  modelled as exact rationals, matching the specification's requirement of
  exact decimal arithmetic.  Identifiers are naturals, dates are the
  ISO "YYYY-MM-DD" strings the code uses as daily_stats keys.
* Timestamps and the display columns of a currency (code, name, country)
  are omitted: no operation modelled here reads them.
* Tables are association lists; SQLite AUTOINCREMENT row ids are modelled
  by a fresh-id function.  Row order inside a table is observationally
  irrelevant for stores whose key columns are distinct (the invWF
  predicate below, which the schema's uniqueness constraints supply).
* The zod insertTransactionSchema only checks the shape of a request
  (strings for numeric columns); it performs no range validation, so it
  has no residue in the model beyond the typed request structure.
-/

namespace Fx

/-- Currency row (table currencies, src/unnamed/part_000 lines 18-25).
Display fields and the last-updated timestamp are omitted. -/
structure Currency where
  id : Nat
  currentRate : ℚ
deriving DecidableEq

/-- Inventory position row (table inventory, src/unnamed/part_000 lines 35-41). -/
structure Inventory where
  id : Nat
  currencyId : Nat
  amount : ℚ
  avgBuyPrice : ℚ
deriving DecidableEq

/-- Transaction type tag: the code stores the strings "BUY" / "SELL". -/
inductive TxType where
  | BUY
  | SELL
deriving DecidableEq

/-- Transaction row (table transactions, src/unnamed/part_000 lines 50-60).
The id and timestamp are omitted; the transaction list is kept
newest-first, matching getTransactions' ORDER BY timestamp DESC. -/
structure Txn where
  currencyId : Nat
  type : TxType
  amount : ℚ
  rate : ℚ
  total : ℚ
  notes : Option String
  profit : ℚ
deriving DecidableEq

/-- Daily stat row (table daily_stats, src/unnamed/part_000 lines 73-78),
keyed by the unique date column. -/
structure DailyStat where
  date : String
  profit : ℚ
  transactionCount : Nat
deriving DecidableEq

/-- The whole persistent state of the ledger store. -/
structure Store where
  currencies : List Currency
  inventory : List Inventory
  transactions : List Txn
  stats : List DailyStat
deriving DecidableEq

/-- Well-formedness of the inventory table: row ids are unique (primary
key) and each currency has at most one position row (the one-to-one
invariant of the data model). -/
def invWF (l : List Inventory) : Prop :=
  l.Pairwise (fun a b => a.id ≠ b.id ∧ a.currencyId ≠ b.currencyId)

instance (l : List Inventory) : Decidable (invWF l) := by
  unfold invWF; infer_instance

/-! Storage operations, translated from class SqliteStorage in
src/server/storage.ts. -/

/-- SELECT * FROM currencies WHERE id = ? (storage.ts lines 71-74). -/
def getCurrency (st : Store) (id : Nat) : Option Currency :=
  st.currencies.find? (fun c => c.id == id)

/-- SELECT * FROM inventory WHERE currency_id = ? (storage.ts lines 112-115). -/
def getInventoryByCurrencyId (st : Store) (currencyId : Nat) : Option Inventory :=
  st.inventory.find? (fun r => r.currencyId == currencyId)

/-- Fresh row id for an INSERT, modelling SQLite AUTOINCREMENT:
one more than the largest id in use. -/
def freshInventoryId (rows : List Inventory) : Nat :=
  (rows.map Inventory.id).foldr max 0 + 1

/-- INSERT INTO inventory (currency_id, amount, avg_buy_price)
(storage.ts lines 117-123); returns the created row with its fresh id. -/
def createInventoryItem (st : Store) (currencyId : Nat) (amount avgBuyPrice : ℚ) :
    Store × Inventory :=
  let item : Inventory := ⟨freshInventoryId st.inventory, currencyId, amount, avgBuyPrice⟩
  ({ st with inventory := st.inventory ++ [item] }, item)

/-- UPDATE inventory SET amount = ?, avg_buy_price = ? WHERE id = ?
(storage.ts lines 125-131). -/
def updateInventoryItem (st : Store) (id : Nat) (amount avgBuyPrice : ℚ) : Store :=
  { st with
    inventory := st.inventory.map (fun r =>
      if r.id == id then { r with amount := amount, avgBuyPrice := avgBuyPrice } else r) }

/-- INSERT INTO transactions ... (storage.ts lines 145-159).  The new row
is consed to the front (newest first).  Note this SqliteStorage method
touches only the transactions table; it does not fold into daily stats. -/
def createTransaction (st : Store) (t : Txn) : Store :=
  { st with transactions := t :: st.transactions }

/-- SELECT * FROM daily_stats WHERE date = ? (storage.ts lines 161-164). -/
def getDailyStats (st : Store) (date : String) : Option DailyStat :=
  st.stats.find? (fun s => s.date == date)

/-- List-level body of the daily-stats upsert: INSERT ... ON CONFLICT(date)
DO UPDATE SET profit = excluded.profit, transaction_count =
excluded.transaction_count (storage.ts lines 166-176). -/
def upsertStats (l : List DailyStat) (s : DailyStat) : List DailyStat :=
  if l.any (fun t => t.date == s.date) then
    l.map (fun t =>
      if t.date == s.date then
        { t with profit := s.profit, transactionCount := s.transactionCount }
      else t)
  else l ++ [s]

/-- createOrUpdateDailyStats (storage.ts lines 166-176): replace-on-conflict
upsert keyed by date. -/
def createOrUpdateDailyStats (st : Store) (s : DailyStat) : Store :=
  { st with stats := upsertStats st.stats s }

/-- resetInventory (storage.ts lines 187-194), the SqliteStorage variant the
routes use: inside one store transaction it deletes all transactions, sets
every inventory amount to 0 (leaving avg_buy_price as is), and zeroes
profit and transaction_count of every daily_stats row. -/
def resetInventory (st : Store) : Store :=
  { st with
    transactions := [],
    inventory := st.inventory.map (fun r => { r with amount := 0 }),
    stats := st.stats.map (fun s => { s with profit := 0, transactionCount := 0 }) }

/-! Pure helpers from the second document of src/server/storage.ts. -/

/-- calculateAverageBuyPrice (storage.ts lines 261-274). -/
def calculateAverageBuyPrice (currentAmount currentAvgPrice newAmount newPrice : ℚ) : ℚ :=
  let currentTotalValue := currentAmount * currentAvgPrice
  let newTotalValue := newAmount * newPrice
  let totalAmount := currentAmount + newAmount
  if totalAmount = 0 then 0 else (currentTotalValue + newTotalValue) / totalAmount

/-- calculateProfit (storage.ts lines 283-289). -/
def calculateProfit (amount sellPrice avgBuyPrice : ℚ) : ℚ :=
  amount * (sellPrice - avgBuyPrice)

/-! Route handlers, translated from registerRoutes in src/unnamed/part_000. -/

/-- Body of a buy or sell request after the zod shape check: the caller
supplies currencyId, amount, rate, total and optional notes
(part_000 lines 222 and 283: total is read from the request body). -/
structure TxnRequest where
  currencyId : Nat
  amount : ℚ
  rate : ℚ
  total : ℚ
  notes : Option String
deriving DecidableEq

/-- Outcome of POST /api/transactions/buy. -/
inductive BuyOutcome where
  | currencyNotFound
  | created (t : Txn)
deriving DecidableEq

/-- Outcome of POST /api/transactions/sell. -/
inductive SellOutcome where
  | inventoryNotFound
  | insufficientStock (available : ℚ)
  | created (t : Txn)
deriving DecidableEq

/-- POST /api/transactions/buy (part_000 lines 219-278): resolve the
currency, get or lazily create the position, recompute the weighted
average inline, update the position, insert a BUY transaction with
profit "0" and the caller-supplied total.  Daily stats are not touched. -/
def processBuy (st : Store) (req : TxnRequest) : Store × BuyOutcome :=
  match getCurrency st req.currencyId with
  | none => (st, BuyOutcome.currencyNotFound)
  | some _ =>
    let found := getInventoryByCurrencyId st req.currencyId
    let stItem : Store × Inventory :=
      match found with
      | some item => (st, item)
      | none => createInventoryItem st req.currencyId 0 req.rate
    let st0 := stItem.1
    let item := stItem.2
    let currentTotalValue := item.amount * item.avgBuyPrice
    let newValue := req.amount * req.rate
    let newTotalAmount := item.amount + req.amount
    let newAvgBuyPrice :=
      if 0 < newTotalAmount then (currentTotalValue + newValue) / newTotalAmount
      else req.rate
    let st1 := updateInventoryItem st0 item.id newTotalAmount newAvgBuyPrice
    let t : Txn := ⟨req.currencyId, TxType.BUY, req.amount, req.rate, req.total, req.notes, 0⟩
    (createTransaction st1 t, BuyOutcome.created t)

/-- Daily-stat fold performed by the sell route (part_000 lines 324-340):
read today's row, then upsert with profit added and count incremented,
or create a fresh row with the sell's profit and count 1. -/
def foldDailyStat (st : Store) (today : String) (profit : ℚ) : Store :=
  match getDailyStats st today with
  | some ds =>
    createOrUpdateDailyStats st ⟨today, ds.profit + profit, ds.transactionCount + 1⟩
  | none => createOrUpdateDailyStats st ⟨today, profit, 1⟩

/-- POST /api/transactions/sell (part_000 lines 281-351): resolve the
position, reject with the available amount if holdings are short,
compute the profit against the stored average, reduce the position
keeping the same average, insert a SELL transaction, and fold the profit
into today's daily stat. -/
def processSell (st : Store) (req : TxnRequest) (today : String) : Store × SellOutcome :=
  match getInventoryByCurrencyId st req.currencyId with
  | none => (st, SellOutcome.inventoryNotFound)
  | some item =>
    if item.amount < req.amount then
      (st, SellOutcome.insufficientStock item.amount)
    else
      let profit := req.amount * (req.rate - item.avgBuyPrice)
      let t : Txn := ⟨req.currencyId, TxType.SELL, req.amount, req.rate, req.total, req.notes, profit⟩
      let st1 := updateInventoryItem st item.id (item.amount - req.amount) item.avgBuyPrice
      let st2 := createTransaction st1 t
      (foldDailyStat st2 today profit, SellOutcome.created t)

/-! Sequences of operations, for the properties quantified over runs. -/

/-- One user intent: a buy or a sell request. -/
inductive Op where
  | buy (req : TxnRequest)
  | sell (req : TxnRequest)

/-- Apply one operation to the store, keeping the store of the outcome
(error outcomes leave the store unchanged by construction). -/
def applyOp (today : String) (st : Store) : Op → Store
  | Op.buy req => (processBuy st req).1
  | Op.sell req => (processSell st req today).1

/-- Run a list of operations left to right, all dated the same day. -/
def runOps (today : String) (st : Store) (ops : List Op) : Store :=
  ops.foldl (applyOp today) st

/-- Profit contributed by one operation: the computed profit of a
successful sell, nothing for a buy or a failed sell. -/
def opProfits (today : String) (st : Store) : Op → List ℚ
  | Op.buy _ => []
  | Op.sell req =>
    match (processSell st req today).2 with
    | SellOutcome.created t => [t.profit]
    | _ => []

/-- Profits of the successful sells of a run, in execution order.
Buys and failed sells contribute nothing. -/
def sellProfits (today : String) : Store → List Op → List ℚ
  | _, [] => []
  | st, op :: ops => opProfits today st op ++ sellProfits today (applyOp today st op) ops

/-- Profit of today's stat row, 0 when the row is absent. -/
def statProfit (st : Store) (d : String) : ℚ :=
  match getDailyStats st d with
  | some s => s.profit
  | none => 0

/-- Transaction count of today's stat row, 0 when the row is absent. -/
def statCount (st : Store) (d : String) : Nat :=
  match getDailyStats st d with
  | some s => s.transactionCount
  | none => 0

/-- Sum of the amounts of a list of requests. -/
def sumAmounts (reqs : List TxnRequest) : ℚ :=
  (reqs.map TxnRequest.amount).sum

/-- Sum of amount * rate over a list of requests. -/
def sumValues (reqs : List TxnRequest) : ℚ :=
  (reqs.map (fun r => r.amount * r.rate)).sum

/-- The three persistence steps of a successful sell, in the order the
route awaits them (part_000 lines 313-340): update the position, insert
the SELL transaction, fold the daily stat.  The route runs them as plain
sequential calls with no wrapping store transaction. -/
def sellPersistSteps (item : Inventory) (req : TxnRequest) (today : String) :
    List (Store → Store) :=
  let profit := req.amount * (req.rate - item.avgBuyPrice)
  let t : Txn := ⟨req.currencyId, TxType.SELL, req.amount, req.rate, req.total, req.notes, profit⟩
  [ fun st => updateInventoryItem st item.id (item.amount - req.amount) item.avgBuyPrice,
    fun st => createTransaction st t,
    fun st => foldDailyStat st today profit ]

/-- Observable state when only the first k persistence steps completed
before a failure (the route has no rollback, so earlier writes stay). -/
def runSteps (st : Store) (steps : List (Store → Store)) (k : Nat) : Store :=
  (steps.take k).foldl (fun s f => f s) st

/-! Concrete sample ledgers used to exercise the theorems. -/

/-- Sample ledger: one currency at market rate 82 with an empty position
seeded at that rate, no transactions, no stats. -/
def usdStore : Store := ⟨[⟨1, 82⟩], [⟨1, 1, 0, 82⟩], [], []⟩

/-- Sample ledger holding 100 units with average buy price 80. -/
def posStore : Store := ⟨[⟨1, 82⟩], [⟨1, 1, 100, 80⟩], [], []⟩

/-- Sample ledger holding 60 units with average buy price 80. -/
def smallStore : Store := ⟨[⟨1, 82⟩], [⟨1, 1, 60, 80⟩], [], []⟩

/-- Sample ledger holding 10 units at average price 5 while the market
rate is 7. -/
def oddStore : Store := ⟨[⟨1, 7⟩], [⟨1, 1, 10, 5⟩], [], []⟩

/-- Sample ledger with one existing daily-stat row. -/
def statStore : Store := ⟨[], [], [], [⟨"2025-01-02", 5, 3⟩]⟩

/-! List-level lemmas about the association-list tables. -/

/-- Every member of a list of naturals is at most the running foldr max. -/
theorem mem_le_foldr_max (l : List Nat) (a : Nat) (h : a ∈ l) : a ≤ l.foldr max 0 := by
  induction l with
  | nil => cases h
  | cons x xs ih =>
    rcases List.mem_cons.mp h with rfl | hx
    · exact le_max_left _ _
    · exact le_trans (ih hx) (le_max_right _ _)

/-- Finding in a mapped list is unchanged when the function preserves the
predicate and fixes every element satisfying it. -/
theorem find?_map_invariant {α : Type} (l : List α) (p : α → Bool) (f : α → α)
    (hp : ∀ x, p (f x) = p x) (hf : ∀ x, p x = true → f x = x) :
    (l.map f).find? p = l.find? p := by
  induction l with
  | nil => rfl
  | cons x xs ih =>
    cases hx : p x with
    | true =>
      simp only [List.map_cons, List.find?_cons, (hp x).trans hx, hx, hf x hx]
    | false =>
      simp only [List.map_cons, List.find?_cons, (hp x).trans hx, hx]
      exact ih

/-- Appending one element to a list in which nothing satisfies the predicate. -/
theorem find?_append_singleton {α : Type} (l : List α) (p : α → Bool) (a : α)
    (h : l.find? p = none) :
    (l ++ [a]).find? p = if p a then some a else none := by
  rw [List.find?_append, h]
  cases hpa : p a <;> simp [List.find?, hpa]

/-- Lookup by currency after an update by the row id of the row found:
returns that row with the two updated columns. -/
theorem find?_update (l : List Inventory) (cid : Nat) (inv : Inventory) (a p : ℚ)
    (hwf : invWF l) (h : l.find? (fun r => r.currencyId == cid) = some inv) :
    (l.map (fun r =>
      if r.id == inv.id then { r with amount := a, avgBuyPrice := p } else r)).find?
      (fun r => r.currencyId == cid) =
      some { inv with amount := a, avgBuyPrice := p } := by
  induction l with
  | nil => simp at h
  | cons x xs ih =>
    cases hx : (x.currencyId == cid) with
    | true =>
      simp only [List.find?_cons, hx] at h
      obtain rfl : x = inv := by simpa using h
      have hid : (x.id == x.id) = true := by simp
      simp only [List.map_cons, hid, if_true, List.find?_cons, hx]
    | false =>
      simp only [List.find?_cons, hx] at h
      have hmem : inv ∈ xs := List.mem_of_find?_eq_some h
      have hpair := (List.pairwise_cons.mp hwf).1 inv hmem
      have hxid : (x.id == inv.id) = false := by simp [hpair.1]
      simp only [List.map_cons, hxid, Bool.false_eq_true, if_false, List.find?_cons, hx]
      exact ih ((List.pairwise_cons.mp hwf).2) h

/-- The row-update map of updateInventoryItem preserves inventory
well-formedness (ids and currency ids are untouched). -/
theorem invWF_map_update (l : List Inventory) (id : Nat) (a p : ℚ) (h : invWF l) :
    invWF (l.map (fun r =>
      if r.id == id then { r with amount := a, avgBuyPrice := p } else r)) := by
  unfold invWF at *
  rw [List.pairwise_map]
  refine h.imp ?_
  intro x y hxy
  constructor
  · have hx : (if (x.id == id) = true then { x with amount := a, avgBuyPrice := p } else x).id = x.id := by
      split <;> rfl
    have hy : (if (y.id == id) = true then { y with amount := a, avgBuyPrice := p } else y).id = y.id := by
      split <;> rfl
    rw [hx, hy]; exact hxy.1
  · have hx : (if (x.id == id) = true then { x with amount := a, avgBuyPrice := p } else x).currencyId = x.currencyId := by
      split <;> rfl
    have hy : (if (y.id == id) = true then { y with amount := a, avgBuyPrice := p } else y).currencyId = y.currencyId := by
      split <;> rfl
    rw [hx, hy]; exact hxy.2

/-- Appending a freshly-created position for a currency that has no row yet
preserves inventory well-formedness. -/
theorem invWF_append_fresh (l : List Inventory) (cid : Nat) (a p : ℚ)
    (hwf : invWF l) (hnone : l.find? (fun r => r.currencyId == cid) = none) :
    invWF (l ++ [⟨freshInventoryId l, cid, a, p⟩]) := by
  unfold invWF
  rw [List.pairwise_append]
  refine ⟨hwf, List.pairwise_singleton _ _, ?_⟩
  intro x hx y hy
  rw [List.mem_singleton] at hy
  subst hy
  constructor
  · show x.id ≠ freshInventoryId l
    have hle := mem_le_foldr_max (l.map Inventory.id) x.id (List.mem_map_of_mem _ hx)
    unfold freshInventoryId
    omega
  · show x.currencyId ≠ cid
    have := List.find?_eq_none.mp hnone x hx
    simpa using this

/-- Replace-branch of the upsert: when some row carries the date, the first
row found afterwards is that row with both columns replaced. -/
theorem find?_map_replace (l : List DailyStat) (s : DailyStat)
    (h : l.any (fun t => t.date == s.date) = true) :
    (l.map (fun t =>
      if t.date == s.date then
        { t with profit := s.profit, transactionCount := s.transactionCount }
      else t)).find? (fun t => t.date == s.date) =
      some ⟨s.date, s.profit, s.transactionCount⟩ := by
  induction l with
  | nil => simp at h
  | cons x xs ih =>
    cases hx : (x.date == s.date) with
    | true =>
      cases x with
      | mk xd xp xc =>
        have hxd : xd = s.date := by simpa using hx
        subst hxd
        simp [List.find?_cons]
    | false =>
      have hxs : xs.any (fun t => t.date == s.date) = true := by
        simpa [List.any_cons, hx] using h
      simp only [List.map_cons, hx, Bool.false_eq_true, if_false, List.find?_cons]
      exact ih hxs

/-- After the SqliteStorage upsert, looking up the payload's date yields
exactly the payload's profit and count, whatever was stored before. -/
theorem find?_upsertStats (l : List DailyStat) (s : DailyStat) :
    (upsertStats l s).find? (fun t => t.date == s.date) =
      some ⟨s.date, s.profit, s.transactionCount⟩ := by
  unfold upsertStats
  cases hany : l.any (fun t => t.date == s.date) with
  | true =>
    simp only [if_true]
    exact find?_map_replace l s hany
  | false =>
    simp only [Bool.false_eq_true, if_false]
    have hnone : l.find? (fun t => t.date == s.date) = none := by
      rw [List.find?_eq_none]
      exact List.any_eq_false.mp hany
    rw [find?_append_singleton _ _ _ hnone]
    simp

/-- Rows of other dates are untouched by the upsert. -/
theorem find?_upsertStats_ne (l : List DailyStat) (s : DailyStat) (d : String)
    (hd : d ≠ s.date) :
    (upsertStats l s).find? (fun t => t.date == d) = l.find? (fun t => t.date == d) := by
  unfold upsertStats
  cases hany : l.any (fun t => t.date == s.date) with
  | true =>
    simp only [if_true]
    apply find?_map_invariant
    · intro x
      split <;> simp_all
    · intro x hx
      have hxd : x.date = d := by simpa using hx
      rw [if_neg (by simp [hxd]; exact hd)]
  | false =>
    simp only [Bool.false_eq_true, if_false]
    rw [List.find?_append]
    have hbad : (s.date == d) = false := by simpa using Ne.symm hd
    have : List.find? (fun t => t.date == d) [s] = none := by
      simp [List.find?_cons, hbad]
    rw [this]
    cases l.find? (fun t => t.date == d) <;> rfl

/-! Lemmas about the route handlers. -/

/-- Equation form of a successful buy on an existing position. -/
theorem processBuy_eq_of_found (st : Store) (req : TxnRequest) (c : Currency) (inv : Inventory)
    (hc : getCurrency st req.currencyId = some c)
    (hi : getInventoryByCurrencyId st req.currencyId = some inv) :
    processBuy st req =
      (createTransaction
        (updateInventoryItem st inv.id (inv.amount + req.amount)
          (if 0 < inv.amount + req.amount
           then (inv.amount * inv.avgBuyPrice + req.amount * req.rate) / (inv.amount + req.amount)
           else req.rate))
        ⟨req.currencyId, TxType.BUY, req.amount, req.rate, req.total, req.notes, 0⟩,
       BuyOutcome.created ⟨req.currencyId, TxType.BUY, req.amount, req.rate, req.total, req.notes, 0⟩) := by
  unfold processBuy
  rw [hc, hi]

/-- Equation form of a sell that passes the stock check. -/
theorem processSell_eq_of_sufficient (st : Store) (req : TxnRequest) (today : String)
    (inv : Inventory)
    (hi : getInventoryByCurrencyId st req.currencyId = some inv)
    (hle : ¬ inv.amount < req.amount) :
    processSell st req today =
      (foldDailyStat
        (createTransaction
          (updateInventoryItem st inv.id (inv.amount - req.amount) inv.avgBuyPrice)
          ⟨req.currencyId, TxType.SELL, req.amount, req.rate, req.total, req.notes,
            req.amount * (req.rate - inv.avgBuyPrice)⟩)
        today (req.amount * (req.rate - inv.avgBuyPrice)),
       SellOutcome.created ⟨req.currencyId, TxType.SELL, req.amount, req.rate, req.total,
         req.notes, req.amount * (req.rate - inv.avgBuyPrice)⟩) := by
  unfold processSell
  rw [hi]
  dsimp only
  rw [if_neg hle]

/-- Equation form of a sell rejected by the stock check: the store comes
back untouched with the available amount reported. -/
theorem processSell_eq_of_insufficient (st : Store) (req : TxnRequest) (today : String)
    (inv : Inventory)
    (hi : getInventoryByCurrencyId st req.currencyId = some inv)
    (hlt : inv.amount < req.amount) :
    processSell st req today = (st, SellOutcome.insufficientStock inv.amount) := by
  unfold processSell
  rw [hi]
  dsimp only
  rw [if_pos hlt]

/-- Equation form of a sell on a currency with no position row. -/
theorem processSell_eq_of_none (st : Store) (req : TxnRequest) (today : String)
    (hi : getInventoryByCurrencyId st req.currencyId = none) :
    processSell st req today = (st, SellOutcome.inventoryNotFound) := by
  unfold processSell
  rw [hi]

/-- The daily-stat fold leaves every table but daily_stats alone. -/
theorem foldDailyStat_frame (st : Store) (d : String) (p : ℚ) :
    (foldDailyStat st d p).currencies = st.currencies ∧
    (foldDailyStat st d p).inventory = st.inventory ∧
    (foldDailyStat st d p).transactions = st.transactions := by
  unfold foldDailyStat
  cases getDailyStats st d <;> exact ⟨rfl, rfl, rfl⟩

/-- A buy never touches the daily_stats table. -/
theorem processBuy_stats (st : Store) (req : TxnRequest) :
    ((processBuy st req).1).stats = st.stats := by
  unfold processBuy
  cases getCurrency st req.currencyId with
  | none => rfl
  | some c => cases getInventoryByCurrencyId st req.currencyId <;> rfl

/-- A buy never touches the currencies table. -/
theorem processBuy_currencies (st : Store) (req : TxnRequest) :
    ((processBuy st req).1).currencies = st.currencies := by
  unfold processBuy
  cases getCurrency st req.currencyId with
  | none => rfl
  | some c => cases getInventoryByCurrencyId st req.currencyId <;> rfl

/-- A sell never touches the currencies table. -/
theorem processSell_currencies (st : Store) (req : TxnRequest) (today : String) :
    ((processSell st req today).1).currencies = st.currencies := by
  unfold processSell
  cases hi : getInventoryByCurrencyId st req.currencyId with
  | none => rfl
  | some inv =>
    dsimp only
    by_cases hlt : inv.amount < req.amount
    · rw [if_pos hlt]
    · rw [if_neg hlt]
      exact (foldDailyStat_frame _ _ _).1

/-- A buy preserves inventory well-formedness. -/
theorem processBuy_wf (st : Store) (req : TxnRequest) (h : invWF st.inventory) :
    invWF ((processBuy st req).1).inventory := by
  unfold processBuy
  cases hc : getCurrency st req.currencyId with
  | none => exact h
  | some c =>
    cases hi : getInventoryByCurrencyId st req.currencyId with
    | some item =>
      show invWF (st.inventory.map _)
      exact invWF_map_update _ _ _ _ h
    | none =>
      show invWF ((st.inventory ++ [_]).map _)
      exact invWF_map_update _ _ _ _
        (invWF_append_fresh st.inventory req.currencyId 0 req.rate h hi)

/-- A sell preserves inventory well-formedness. -/
theorem processSell_wf (st : Store) (req : TxnRequest) (today : String)
    (h : invWF st.inventory) :
    invWF ((processSell st req today).1).inventory := by
  unfold processSell
  cases hi : getInventoryByCurrencyId st req.currencyId with
  | none => exact h
  | some inv =>
    dsimp only
    by_cases hlt : inv.amount < req.amount
    · rw [if_pos hlt]; exact h
    · rw [if_neg hlt]
      have hframe := (foldDailyStat_frame
        (createTransaction
          (updateInventoryItem st inv.id (inv.amount - req.amount) inv.avgBuyPrice)
          ⟨req.currencyId, TxType.SELL, req.amount, req.rate, req.total, req.notes,
            req.amount * (req.rate - inv.avgBuyPrice)⟩) today
        (req.amount * (req.rate - inv.avgBuyPrice))).2.1
      rw [hframe]
      exact invWF_map_update _ _ _ _ h

/-- Looking up the currency bought right after a buy on an existing
position: the amount grows by the request's amount and the average is the
route's inline recomputation. -/
theorem processBuy_lookup (st : Store) (req : TxnRequest) (c : Currency) (inv : Inventory)
    (hwf : invWF st.inventory)
    (hc : getCurrency st req.currencyId = some c)
    (hi : getInventoryByCurrencyId st req.currencyId = some inv) :
    getInventoryByCurrencyId (processBuy st req).1 req.currencyId =
      some { inv with
        amount := inv.amount + req.amount,
        avgBuyPrice :=
          if 0 < inv.amount + req.amount
          then (inv.amount * inv.avgBuyPrice + req.amount * req.rate) / (inv.amount + req.amount)
          else req.rate } := by
  rw [processBuy_eq_of_found st req c inv hc hi]
  exact find?_update st.inventory req.currencyId inv _ _ hwf hi

/-- Looking up the currency sold right after a successful sell: the amount
shrinks by the request's amount and the average price is untouched. -/
theorem processSell_lookup (st : Store) (req : TxnRequest) (today : String) (inv : Inventory)
    (hwf : invWF st.inventory)
    (hi : getInventoryByCurrencyId st req.currencyId = some inv)
    (hle : ¬ inv.amount < req.amount) :
    getInventoryByCurrencyId (processSell st req today).1 req.currencyId =
      some { inv with amount := inv.amount - req.amount } := by
  rw [processSell_eq_of_sufficient st req today inv hi hle]
  show getInventoryByCurrencyId (foldDailyStat _ _ _) _ = _
  unfold getInventoryByCurrencyId
  rw [(foldDailyStat_frame _ _ _).2.1]
  exact find?_update st.inventory req.currencyId inv _ _ hwf hi

/-- Transaction trace of a successful sell: exactly the one SELL row is
prepended. -/
theorem processSell_transactions (st : Store) (req : TxnRequest) (today : String)
    (inv : Inventory)
    (hi : getInventoryByCurrencyId st req.currencyId = some inv)
    (hle : ¬ inv.amount < req.amount) :
    ((processSell st req today).1).transactions =
      ⟨req.currencyId, TxType.SELL, req.amount, req.rate, req.total, req.notes,
        req.amount * (req.rate - inv.avgBuyPrice)⟩ :: st.transactions := by
  rw [processSell_eq_of_sufficient st req today inv hi hle]
  show (foldDailyStat _ _ _).transactions = _
  rw [(foldDailyStat_frame _ _ _).2.2]
  rfl

/-- Outcome and transaction trace of a buy once the currency exists: a BUY
row with profit 0 is prepended whether or not a position already existed. -/
theorem processBuy_created (st : Store) (req : TxnRequest) (c : Currency)
    (hc : getCurrency st req.currencyId = some c) :
    (processBuy st req).2 =
      BuyOutcome.created ⟨req.currencyId, TxType.BUY, req.amount, req.rate, req.total,
        req.notes, 0⟩ ∧
    ((processBuy st req).1).transactions =
      ⟨req.currencyId, TxType.BUY, req.amount, req.rate, req.total, req.notes, 0⟩ ::
        st.transactions := by
  unfold processBuy
  rw [hc]
  cases getInventoryByCurrencyId st req.currencyId <;> exact ⟨rfl, rfl⟩

/-- Today's stat columns only depend on the stats table. -/
theorem statProfit_congr (st₁ st₂ : Store) (d : String) (h : st₁.stats = st₂.stats) :
    statProfit st₁ d = statProfit st₂ d ∧ statCount st₁ d = statCount st₂ d := by
  unfold statProfit statCount getDailyStats
  rw [h]
  exact ⟨rfl, rfl⟩

/-- Effect of the sell route's daily-stat fold on today's columns: profit
grows by the folded profit and the count by one, creating the row if
needed. -/
theorem foldDailyStat_stat (st : Store) (d : String) (p : ℚ) :
    statProfit (foldDailyStat st d p) d = statProfit st d + p ∧
    statCount (foldDailyStat st d p) d = statCount st d + 1 := by
  cases hds : getDailyStats st d with
  | some ds =>
    have h := find?_upsertStats st.stats ⟨d, ds.profit + p, ds.transactionCount + 1⟩
    have hfold : foldDailyStat st d p =
        createOrUpdateDailyStats st ⟨d, ds.profit + p, ds.transactionCount + 1⟩ := by
      unfold foldDailyStat
      rw [hds]
    have h1 : statProfit st d = ds.profit := by unfold statProfit; rw [hds]
    have h2 : statCount st d = ds.transactionCount := by unfold statCount; rw [hds]
    rw [hfold, h1, h2]
    constructor
    · unfold statProfit getDailyStats createOrUpdateDailyStats
      rw [h]
    · unfold statCount getDailyStats createOrUpdateDailyStats
      rw [h]
  | none =>
    have h := find?_upsertStats st.stats ⟨d, p, 1⟩
    have hfold : foldDailyStat st d p = createOrUpdateDailyStats st ⟨d, p, 1⟩ := by
      unfold foldDailyStat
      rw [hds]
    have h1 : statProfit st d = 0 := by unfold statProfit; rw [hds]
    have h2 : statCount st d = 0 := by unfold statCount; rw [hds]
    rw [hfold, h1, h2]
    constructor
    · unfold statProfit getDailyStats createOrUpdateDailyStats
      rw [h]
      exact (zero_add p).symm
    · unfold statCount getDailyStats createOrUpdateDailyStats
      rw [h]

/-- The currency table only matters for getCurrency. -/
theorem getCurrency_congr (st₁ st₂ : Store) (i : Nat) (h : st₁.currencies = st₂.currencies) :
    getCurrency st₁ i = getCurrency st₂ i := by
  unfold getCurrency
  rw [h]

/-- Daily-stat effect of one operation: a successful sell adds its profit
and one to the count; everything else leaves both columns alone. -/
theorem applyOp_stat (today : String) (st : Store) (op : Op) :
    statProfit (applyOp today st op) today =
      statProfit st today + (opProfits today st op).sum ∧
    statCount (applyOp today st op) today =
      statCount st today + (opProfits today st op).length := by
  cases op with
  | buy req =>
    obtain ⟨h1, h2⟩ := statProfit_congr (processBuy st req).1 st today (processBuy_stats st req)
    dsimp only [applyOp, opProfits]
    constructor
    · rw [h1]; simp
    · rw [h2]; simp
  | sell req =>
    dsimp only [applyOp, opProfits]
    cases hi : getInventoryByCurrencyId st req.currencyId with
    | none =>
      rw [processSell_eq_of_none st req today hi]
      dsimp only
      constructor <;> simp
    | some inv =>
      by_cases hlt : inv.amount < req.amount
      · rw [processSell_eq_of_insufficient st req today inv hi hlt]
        dsimp only
        constructor <;> simp
      · rw [processSell_eq_of_sufficient st req today inv hi hlt]
        dsimp only
        obtain ⟨hf1, hf2⟩ := foldDailyStat_stat
          (createTransaction
            (updateInventoryItem st inv.id (inv.amount - req.amount) inv.avgBuyPrice)
            ⟨req.currencyId, TxType.SELL, req.amount, req.rate, req.total, req.notes,
              req.amount * (req.rate - inv.avgBuyPrice)⟩)
          today (req.amount * (req.rate - inv.avgBuyPrice))
        obtain ⟨hc1, hc2⟩ := statProfit_congr
          (createTransaction
            (updateInventoryItem st inv.id (inv.amount - req.amount) inv.avgBuyPrice)
            ⟨req.currencyId, TxType.SELL, req.amount, req.rate, req.total, req.notes,
              req.amount * (req.rate - inv.avgBuyPrice)⟩)
          st today rfl
        rw [hf1, hf2, hc1, hc2]
        constructor <;> simp

/-- Invariant behind daily-stat additivity: over any run all dated the same
day, today's profit column advances by the sum of the successful sells'
profits and the count by their number. -/
theorem runOps_stat (today : String) (ops : List Op) :
    ∀ st : Store,
      statProfit (runOps today st ops) today =
        statProfit st today + (sellProfits today st ops).sum ∧
      statCount (runOps today st ops) today =
        statCount st today + (sellProfits today st ops).length := by
  induction ops with
  | nil =>
    intro st
    constructor <;> simp [runOps, sellProfits]
  | cons op ops ih =>
    intro st
    obtain ⟨hp, hc⟩ := applyOp_stat today st op
    obtain ⟨ihp, ihc⟩ := ih (applyOp today st op)
    have hrw : runOps today st (op :: ops) = runOps today (applyOp today st op) ops := rfl
    have hsw : sellProfits today st (op :: ops) =
        opProfits today st op ++ sellProfits today (applyOp today st op) ops := rfl
    rw [hrw, hsw]
    constructor
    · rw [ihp, hp, List.sum_append]
      ring
    · rw [ihc, hc, List.length_append]
      omega

/-- Shorthand for the cons-step of sumAmounts. -/
theorem sumAmounts_cons (r : TxnRequest) (rs : List TxnRequest) :
    sumAmounts (r :: rs) = r.amount + sumAmounts rs := by
  simp [sumAmounts]

/-- Shorthand for the cons-step of sumValues. -/
theorem sumValues_cons (r : TxnRequest) (rs : List TxnRequest) :
    sumValues (r :: rs) = r.amount * r.rate + sumValues rs := by
  simp [sumValues]

/-- Position lookup after the reset: amount zeroed, average price kept. -/
theorem resetInventory_lookup (st : Store) (cid : Nat) (inv : Inventory)
    (hi : getInventoryByCurrencyId st cid = some inv) :
    getInventoryByCurrencyId (resetInventory st) cid =
      some ⟨inv.id, inv.currencyId, 0, inv.avgBuyPrice⟩ := by
  unfold getInventoryByCurrencyId at hi ⊢
  unfold resetInventory
  show (st.inventory.map _).find? _ = _
  rw [List.find?_map]
  show (st.inventory.find? (fun r => r.currencyId == cid)).map _ = _
  rw [hi]
  rfl

/-- Daily-stat lookup after the reset: both columns zeroed, for every date
that had a row. -/
theorem resetInventory_stats_lookup (st : Store) (d : String) (ds : DailyStat)
    (hds : getDailyStats st d = some ds) :
    getDailyStats (resetInventory st) d = some ⟨d, 0, 0⟩ := by
  have hdd : ds.date = d := by
    have := List.find?_some hds
    simpa using this
  unfold getDailyStats at hds ⊢
  unfold resetInventory
  show (st.stats.map _).find? _ = _
  rw [List.find?_map]
  show (st.stats.find? (fun s => s.date == d)).map _ = _
  rw [hds]
  simp [hdd]

/-- Resetting twice is the same as resetting once. -/
theorem resetInventory_idem (st : Store) :
    resetInventory (resetInventory st) = resetInventory st := by
  unfold resetInventory
  congr 1
  · rw [List.map_map]
    exact List.map_congr_left (fun x _ => rfl)
  · rw [List.map_map]
    exact List.map_congr_left (fun x _ => rfl)

/-- A nonempty list of strictly positive amounts sums to something
strictly positive. -/
theorem sumAmounts_pos (reqs : List TxnRequest) (hne : reqs ≠ [])
    (hall : ∀ r ∈ reqs, 0 < r.amount) : 0 < sumAmounts reqs := by
  cases reqs with
  | nil => exact absurd rfl hne
  | cons r rs =>
    rw [sumAmounts_cons]
    have h1 : 0 < r.amount := hall r (List.mem_cons_self r rs)
    have h2 : 0 ≤ sumAmounts rs := by
      apply List.sum_nonneg
      intro x hx
      obtain ⟨r', hr', rfl⟩ := List.mem_map.mp hx
      exact le_of_lt (hall r' (List.mem_cons_of_mem r hr'))
    linarith

/-- Running a sequence of buys of one currency accumulates the amounts and
keeps the product amount * average equal to the accumulated cost. -/
theorem runBuys (today : String) (cid : Nat) (reqs : List TxnRequest) :
    ∀ (st : Store) (c : Currency) (inv : Inventory),
      invWF st.inventory →
      getCurrency st cid = some c →
      getInventoryByCurrencyId st cid = some inv →
      0 ≤ inv.amount →
      (∀ r ∈ reqs, r.currencyId = cid ∧ 0 < r.amount) →
      ∃ q : ℚ,
        getInventoryByCurrencyId (runOps today st (reqs.map Op.buy)) cid =
          some ⟨inv.id, inv.currencyId, inv.amount + sumAmounts reqs, q⟩ ∧
        (inv.amount + sumAmounts reqs) * q =
          inv.amount * inv.avgBuyPrice + sumValues reqs := by
  induction reqs with
  | nil =>
    intro st c inv hwf hc hi h0 _
    refine ⟨inv.avgBuyPrice, ?_, ?_⟩
    · show getInventoryByCurrencyId st cid = _
      rw [hi]
      have : inv.amount + sumAmounts [] = inv.amount := by
        simp [sumAmounts]
      rw [this]
    · have h1 : sumAmounts ([] : List TxnRequest) = 0 := by simp [sumAmounts]
      have h2 : sumValues ([] : List TxnRequest) = 0 := by simp [sumValues]
      rw [h1, h2]
      ring
  | cons r rs ih =>
    intro st c inv hwf hc hi h0 hall
    obtain ⟨hrc, hra⟩ := hall r (List.mem_cons_self r rs)
    have hpos : 0 < inv.amount + r.amount := by linarith
    have hc' : getCurrency st r.currencyId = some c := by rw [hrc]; exact hc
    have hi' : getInventoryByCurrencyId st r.currencyId = some inv := by rw [hrc]; exact hi
    have hstep := processBuy_lookup st r c inv hwf hc' hi'
    rw [if_pos hpos] at hstep
    rw [hrc] at hstep
    have hwf1 : invWF ((processBuy st r).1).inventory := processBuy_wf st r hwf
    have hc1 : getCurrency (processBuy st r).1 cid = some c := by
      rw [getCurrency_congr (processBuy st r).1 st cid (processBuy_currencies st r)]
      exact hc
    have h01 : (0:ℚ) ≤ inv.amount + r.amount := le_of_lt hpos
    obtain ⟨q, hlook, hq⟩ := ih (processBuy st r).1 c
      ⟨inv.id, inv.currencyId, inv.amount + r.amount,
        (inv.amount * inv.avgBuyPrice + r.amount * r.rate) / (inv.amount + r.amount)⟩
      hwf1 hc1 hstep h01 (fun x hx => hall x (List.mem_cons_of_mem r hx))
    refine ⟨q, ?_, ?_⟩
    · have hrun : runOps today st ((r :: rs).map Op.buy) =
          runOps today (processBuy st r).1 (rs.map Op.buy) := rfl
      rw [hrun]
      rw [hlook]
      have : inv.amount + r.amount + sumAmounts rs = inv.amount + sumAmounts (r :: rs) := by
        rw [sumAmounts_cons]
        ring
      rw [this]
    · have hcancel : (inv.amount + r.amount) *
          ((inv.amount * inv.avgBuyPrice + r.amount * r.rate) / (inv.amount + r.amount)) =
          inv.amount * inv.avgBuyPrice + r.amount * r.rate := by
        field_simp
      rw [sumAmounts_cons, sumValues_cons]
      have hEq : inv.amount + (r.amount + sumAmounts rs) =
          inv.amount + r.amount + sumAmounts rs := by ring
      rw [hEq]
      dsimp only at hq
      rw [hcancel] at hq
      linarith [hq]

/-! Claim theorems. -/

/-- C1: for every sequence of buys of one currency starting from zero
holdings, each with positive amount, the resulting position has amount
equal to the sum of the bought amounts and avgBuyPrice equal to
the amount-weighted average of the buy rates; in particular a single
buy onto a zero-amount position yields avgBuyPrice exactly the buy's
rate, with no division artifact. -/
theorem buy_sequence_weighted_average :
    (∀ (today : String) (st : Store) (cid : Nat) (c : Currency) (inv : Inventory)
        (reqs : List TxnRequest),
      invWF st.inventory →
      getCurrency st cid = some c →
      getInventoryByCurrencyId st cid = some inv →
      inv.amount = 0 →
      reqs ≠ [] →
      (∀ r ∈ reqs, r.currencyId = cid ∧ 0 < r.amount) →
      getInventoryByCurrencyId (runOps today st (reqs.map Op.buy)) cid =
        some ⟨inv.id, inv.currencyId, sumAmounts reqs,
          sumValues reqs / sumAmounts reqs⟩) ∧
    (∀ (st : Store) (req : TxnRequest) (c : Currency) (inv : Inventory),
      invWF st.inventory →
      getCurrency st req.currencyId = some c →
      getInventoryByCurrencyId st req.currencyId = some inv →
      inv.amount = 0 →
      0 < req.amount →
      getInventoryByCurrencyId (processBuy st req).1 req.currencyId =
        some ⟨inv.id, inv.currencyId, req.amount, req.rate⟩) := by
  constructor
  · intro today st cid c inv reqs hwf hc hi h0 hne hall
    obtain ⟨q, hlook, hq⟩ := runBuys today cid reqs st c inv hwf hc hi (by rw [h0]) hall
    rw [h0, zero_add] at hlook
    rw [h0, zero_add, zero_mul, zero_add] at hq
    have hS : sumAmounts reqs ≠ 0 :=
      ne_of_gt (sumAmounts_pos reqs hne (fun r hr => (hall r hr).2))
    have hqv : q = sumValues reqs / sumAmounts reqs := by
      rw [eq_div_iff hS]
      linear_combination hq
    rw [hqv] at hlook
    exact hlook
  · intro st req c inv hwf hc hi h0 hra
    have hstep := processBuy_lookup st req c inv hwf hc hi
    rw [h0, zero_add] at hstep
    rw [if_pos hra, zero_mul, zero_add] at hstep
    rw [mul_div_cancel_left₀ _ (ne_of_gt hra)] at hstep
    exact hstep

/-- C2: a sell of an amount within the held amount succeeds, reduces the
position by exactly that amount and carries the average buy price forward
unchanged. -/
theorem sell_keeps_avg_price :
    ∀ (st : Store) (req : TxnRequest) (today : String) (inv : Inventory),
      invWF st.inventory →
      getInventoryByCurrencyId st req.currencyId = some inv →
      req.amount ≤ inv.amount →
      getInventoryByCurrencyId (processSell st req today).1 req.currencyId =
        some ⟨inv.id, inv.currencyId, inv.amount - req.amount, inv.avgBuyPrice⟩ := by
  intro st req today inv hwf hi hle
  exact processSell_lookup st req today inv hwf hi (not_lt.mpr hle)

/-- C3: a sell requesting more than the held amount fails with
InsufficientStock carrying the available amount and leaves the entire
store untouched, while a sell of exactly the held amount passes the
check and is created. -/
theorem sell_insufficient_stock :
    (∀ (st : Store) (req : TxnRequest) (today : String) (inv : Inventory),
      getInventoryByCurrencyId st req.currencyId = some inv →
      inv.amount < req.amount →
      processSell st req today = (st, SellOutcome.insufficientStock inv.amount)) ∧
    (∀ (st : Store) (req : TxnRequest) (today : String) (inv : Inventory),
      getInventoryByCurrencyId st req.currencyId = some inv →
      req.amount = inv.amount →
      (processSell st req today).2 = SellOutcome.created
        ⟨req.currencyId, TxType.SELL, req.amount, req.rate, req.total, req.notes,
          req.amount * (req.rate - inv.avgBuyPrice)⟩) := by
  constructor
  · intro st req today inv hi hlt
    exact processSell_eq_of_insufficient st req today inv hi hlt
  · intro st req today inv hi heq
    have hle : ¬ inv.amount < req.amount := by rw [heq]; exact lt_irrefl _
    rw [processSell_eq_of_sufficient st req today inv hi hle]

/-- C4: every successful sell records a SELL transaction whose profit is
calculateProfit of the sold amount, the sell rate and the position's
average price at the time of the sell, and every successful buy records a
BUY transaction with profit zero; both rows land in the transaction log. -/
theorem transaction_profit_fields :
    (∀ (st : Store) (req : TxnRequest) (today : String) (inv : Inventory),
      getInventoryByCurrencyId st req.currencyId = some inv →
      ¬ inv.amount < req.amount →
      (processSell st req today).2 = SellOutcome.created
        ⟨req.currencyId, TxType.SELL, req.amount, req.rate, req.total, req.notes,
          calculateProfit req.amount req.rate inv.avgBuyPrice⟩ ∧
      ((processSell st req today).1).transactions =
        ⟨req.currencyId, TxType.SELL, req.amount, req.rate, req.total, req.notes,
          calculateProfit req.amount req.rate inv.avgBuyPrice⟩ :: st.transactions) ∧
    (∀ (st : Store) (req : TxnRequest) (c : Currency),
      getCurrency st req.currencyId = some c →
      (processBuy st req).2 = BuyOutcome.created
        ⟨req.currencyId, TxType.BUY, req.amount, req.rate, req.total, req.notes, 0⟩ ∧
      ((processBuy st req).1).transactions =
        ⟨req.currencyId, TxType.BUY, req.amount, req.rate, req.total, req.notes, 0⟩ ::
          st.transactions) := by
  constructor
  · intro st req today inv hi hle
    constructor
    · rw [processSell_eq_of_sufficient st req today inv hi hle]
      rfl
    · rw [processSell_transactions st req today inv hi hle]
      rfl
  · intro st req c hc
    exact processBuy_created st req c hc

/-- C5: starting from an absent or zeroed daily stat for the run's date,
after any interleaving of buys and sells all dated that day the stat's
profit equals the sum of the successful sells' computed profits and its
transactionCount equals their number; buys and rejected sells contribute
neither profit nor count. -/
theorem daily_stat_additivity :
    ∀ (today : String) (st : Store) (ops : List Op),
      (getDailyStats st today = none ∨ getDailyStats st today = some ⟨today, 0, 0⟩) →
      statProfit (runOps today st ops) today = (sellProfits today st ops).sum ∧
      statCount (runOps today st ops) today = (sellProfits today st ops).length := by
  intro today st ops h0
  obtain ⟨hp, hc⟩ := runOps_stat today ops st
  have hp0 : statProfit st today = 0 := by
    unfold statProfit
    rcases h0 with h | h <;> rw [h]
  have hc0 : statCount st today = 0 := by
    unfold statCount
    rcases h0 with h | h <;> rw [h]
  rw [hp, hc, hp0, hc0]
  constructor
  · ring
  · omega

/-- C6 (amended): the three persistence steps of a sell really are the
sell route (running all of them is processSell's store), and they are
sequential with no rollback: stopping after the inventory write leaves
the position already reduced while the transaction log and the daily
stats are still untouched. -/
theorem sell_partial_write_shape :
    ∀ (st : Store) (req : TxnRequest) (today : String) (inv : Inventory),
      invWF st.inventory →
      getInventoryByCurrencyId st req.currencyId = some inv →
      ¬ inv.amount < req.amount →
      runSteps st (sellPersistSteps inv req today) 3 = (processSell st req today).1 ∧
      getInventoryByCurrencyId (runSteps st (sellPersistSteps inv req today) 1)
          req.currencyId =
        some ⟨inv.id, inv.currencyId, inv.amount - req.amount, inv.avgBuyPrice⟩ ∧
      (runSteps st (sellPersistSteps inv req today) 1).transactions = st.transactions ∧
      (runSteps st (sellPersistSteps inv req today) 1).stats = st.stats := by
  intro st req today inv hwf hi hle
  refine ⟨?_, ?_, rfl, rfl⟩
  · rw [processSell_eq_of_sufficient st req today inv hi hle]
    rfl
  · show getInventoryByCurrencyId
        (updateInventoryItem st inv.id (inv.amount - req.amount) inv.avgBuyPrice)
        req.currencyId = _
    exact find?_update st.inventory req.currencyId inv _ _ hwf hi

/-- C7 (amended): the buy route performs no positivity validation on
amount or rate; a buy whose (possibly negative) amount drives the
position below zero is accepted, records a BUY transaction, and persists
the negative amount. -/
theorem buy_no_positivity_validation :
    ∀ (st : Store) (req : TxnRequest) (c : Currency) (inv : Inventory),
      invWF st.inventory →
      getCurrency st req.currencyId = some c →
      getInventoryByCurrencyId st req.currencyId = some inv →
      inv.amount + req.amount < 0 →
      (processBuy st req).2 = BuyOutcome.created
        ⟨req.currencyId, TxType.BUY, req.amount, req.rate, req.total, req.notes, 0⟩ ∧
      getInventoryByCurrencyId (processBuy st req).1 req.currencyId =
        some ⟨inv.id, inv.currencyId, inv.amount + req.amount, req.rate⟩ := by
  intro st req c inv hwf hc hi hneg
  constructor
  · exact (processBuy_created st req c hc).1
  · have hstep := processBuy_lookup st req c inv hwf hc hi
    rw [if_neg (by linarith)] at hstep
    exact hstep

/-- C8 (amended): after SqliteStorage's resetInventory (the variant the
routes call), no transactions remain, every position holds amount 0 with
its avgBuyPrice left at the pre-reset value (not re-seeded from the
currency's market rate), every stored daily-stat row of any date is
zeroed, and the operation is idempotent. -/
theorem reset_state :
    (∀ st : Store, (resetInventory st).transactions = []) ∧
    (∀ (st : Store) (cid : Nat) (inv : Inventory),
      getInventoryByCurrencyId st cid = some inv →
      getInventoryByCurrencyId (resetInventory st) cid =
        some ⟨inv.id, inv.currencyId, 0, inv.avgBuyPrice⟩) ∧
    (∀ (st : Store) (d : String) (ds : DailyStat),
      getDailyStats st d = some ds →
      getDailyStats (resetInventory st) d = some ⟨d, 0, 0⟩) ∧
    (∀ st : Store, resetInventory (resetInventory st) = resetInventory st) := by
  refine ⟨fun st => rfl, ?_, ?_, resetInventory_idem⟩
  · intro st cid inv hi
    exact resetInventory_lookup st cid inv hi
  · intro st d ds hds
    exact resetInventory_stats_lookup st d ds hds

/-- C9 (amended): the stored total of a buy or sell transaction is the
caller-supplied total field of the request, passed through unchanged;
the route does not compute it as amount * rate. -/
theorem transaction_total_passthrough :
    (∀ (st : Store) (req : TxnRequest) (c : Currency),
      getCurrency st req.currencyId = some c →
      ∃ t : Txn, (processBuy st req).2 = BuyOutcome.created t ∧ t.total = req.total) ∧
    (∀ (st : Store) (req : TxnRequest) (today : String) (inv : Inventory),
      getInventoryByCurrencyId st req.currencyId = some inv →
      ¬ inv.amount < req.amount →
      ∃ t : Txn, (processSell st req today).2 = SellOutcome.created t ∧
        t.total = req.total) := by
  constructor
  · intro st req c hc
    exact ⟨⟨req.currencyId, TxType.BUY, req.amount, req.rate, req.total, req.notes, 0⟩,
      (processBuy_created st req c hc).1, rfl⟩
  · intro st req today inv hi hle
    refine ⟨⟨req.currencyId, TxType.SELL, req.amount, req.rate, req.total, req.notes,
      req.amount * (req.rate - inv.avgBuyPrice)⟩, ?_, rfl⟩
    rw [processSell_eq_of_sufficient st req today inv hi hle]

/-- C10: createOrUpdateDailyStats has replace semantics: afterwards the
stored row for the payload's date carries exactly the payload's profit
and transactionCount, whatever was stored before, and rows of every
other date are untouched. -/
theorem daily_stats_upsert_replaces :
    ∀ (st : Store) (s : DailyStat),
      getDailyStats (createOrUpdateDailyStats st s) s.date =
        some ⟨s.date, s.profit, s.transactionCount⟩ ∧
      ∀ d : String, d ≠ s.date →
        getDailyStats (createOrUpdateDailyStats st s) d = getDailyStats st d := by
  intro st s
  constructor
  · exact find?_upsertStats st.stats s
  · intro d hd
    exact find?_upsertStats_ne st.stats s d hd

/-! Witnesses and counterexamples on the sample ledgers. -/

/-- Witness for C1 on the spec's example: buy 100 at 80 then 50 at 83
starting from zero holdings, and a single buy onto the empty position. -/
theorem buy_sequence_weighted_average_witness :
    getInventoryByCurrencyId
      (runOps "2025-01-02" usdStore
        (([⟨1, 100, 80, 8000, none⟩, ⟨1, 50, 83, 4150, none⟩] : List TxnRequest).map
          Op.buy)) 1 =
      some ⟨1, 1, sumAmounts [⟨1, 100, 80, 8000, none⟩, ⟨1, 50, 83, 4150, none⟩],
        sumValues [⟨1, 100, 80, 8000, none⟩, ⟨1, 50, 83, 4150, none⟩] /
          sumAmounts [⟨1, 100, 80, 8000, none⟩, ⟨1, 50, 83, 4150, none⟩]⟩ ∧
    getInventoryByCurrencyId (processBuy usdStore ⟨1, 100, 80, 8000, none⟩).1 1 =
      some ⟨1, 1, 100, 80⟩ :=
  ⟨buy_sequence_weighted_average.1 "2025-01-02" usdStore 1 ⟨1, 82⟩ ⟨1, 1, 0, 82⟩
      [⟨1, 100, 80, 8000, none⟩, ⟨1, 50, 83, 4150, none⟩]
      (by decide) (by decide) (by decide) (by decide) (by decide) (by decide),
   buy_sequence_weighted_average.2 usdStore ⟨1, 100, 80, 8000, none⟩ ⟨1, 82⟩ ⟨1, 1, 0, 82⟩
      (by decide) (by decide) (by decide) (by decide) (by decide)⟩

/-- Witness for C2: holding 100 at 80, sell 40 at 90; amount drops to
100 - 40 and the average price stays 80. -/
theorem sell_keeps_avg_price_witness :
    getInventoryByCurrencyId
      (processSell posStore ⟨1, 40, 90, 3600, none⟩ "2025-01-02").1 1 =
      some ⟨1, 1, 100 - 40, 80⟩ :=
  sell_keeps_avg_price posStore ⟨1, 40, 90, 3600, none⟩ "2025-01-02" ⟨1, 1, 100, 80⟩
    (by decide) (by decide) (by decide)

/-- Witness for C3: holding 60, selling 100 is rejected with available 60
and the store untouched; selling exactly 60 is created. -/
theorem sell_insufficient_stock_witness :
    processSell smallStore ⟨1, 100, 90, 9000, none⟩ "2025-01-02" =
      (smallStore, SellOutcome.insufficientStock 60) ∧
    (processSell smallStore ⟨1, 60, 90, 5400, none⟩ "2025-01-02").2 =
      SellOutcome.created ⟨1, TxType.SELL, 60, 90, 5400, none, 60 * (90 - 80)⟩ :=
  ⟨sell_insufficient_stock.1 smallStore ⟨1, 100, 90, 9000, none⟩ "2025-01-02"
      ⟨1, 1, 60, 80⟩ (by decide) (by decide),
   sell_insufficient_stock.2 smallStore ⟨1, 60, 90, 5400, none⟩ "2025-01-02"
      ⟨1, 1, 60, 80⟩ (by decide) (by decide)⟩

/-- Witness for C4: the spec's example sell 40 at 90 against average 80,
and a buy recording profit zero. -/
theorem transaction_profit_fields_witness :
    ((processSell posStore ⟨1, 40, 90, 3600, none⟩ "2025-01-02").2 =
      SellOutcome.created ⟨1, TxType.SELL, 40, 90, 3600, none,
        calculateProfit 40 90 80⟩ ∧
     ((processSell posStore ⟨1, 40, 90, 3600, none⟩ "2025-01-02").1).transactions =
      ⟨1, TxType.SELL, 40, 90, 3600, none, calculateProfit 40 90 80⟩ ::
        posStore.transactions) ∧
    ((processBuy usdStore ⟨1, 2, 3, 100, none⟩).2 =
      BuyOutcome.created ⟨1, TxType.BUY, 2, 3, 100, none, 0⟩ ∧
     ((processBuy usdStore ⟨1, 2, 3, 100, none⟩).1).transactions =
      ⟨1, TxType.BUY, 2, 3, 100, none, 0⟩ :: usdStore.transactions) :=
  ⟨transaction_profit_fields.1 posStore ⟨1, 40, 90, 3600, none⟩ "2025-01-02"
      ⟨1, 1, 100, 80⟩ (by decide) (by decide),
   transaction_profit_fields.2 usdStore ⟨1, 2, 3, 100, none⟩ ⟨1, 82⟩ (by decide)⟩

/-- Witness for C5: two sells interleaved with a buy, all dated the same
day, starting with no stat row for that day. -/
theorem daily_stat_additivity_witness :
    statProfit (runOps "2025-01-02" posStore
        [Op.sell ⟨1, 40, 90, 3600, none⟩, Op.buy ⟨1, 10, 80, 800, none⟩,
         Op.sell ⟨1, 50, 90, 4500, none⟩]) "2025-01-02" =
      (sellProfits "2025-01-02" posStore
        [Op.sell ⟨1, 40, 90, 3600, none⟩, Op.buy ⟨1, 10, 80, 800, none⟩,
         Op.sell ⟨1, 50, 90, 4500, none⟩]).sum ∧
    statCount (runOps "2025-01-02" posStore
        [Op.sell ⟨1, 40, 90, 3600, none⟩, Op.buy ⟨1, 10, 80, 800, none⟩,
         Op.sell ⟨1, 50, 90, 4500, none⟩]) "2025-01-02" =
      (sellProfits "2025-01-02" posStore
        [Op.sell ⟨1, 40, 90, 3600, none⟩, Op.buy ⟨1, 10, 80, 800, none⟩,
         Op.sell ⟨1, 50, 90, 4500, none⟩]).length :=
  daily_stat_additivity "2025-01-02" posStore
    [Op.sell ⟨1, 40, 90, 3600, none⟩, Op.buy ⟨1, 10, 80, 800, none⟩,
     Op.sell ⟨1, 50, 90, 4500, none⟩]
    (Or.inl (by decide))

/-- Witness for the amended C6 on a concrete sell. -/
theorem sell_partial_write_shape_witness :
    runSteps posStore
        (sellPersistSteps ⟨1, 1, 100, 80⟩ ⟨1, 40, 90, 3600, none⟩ "2025-01-02") 3 =
      (processSell posStore ⟨1, 40, 90, 3600, none⟩ "2025-01-02").1 ∧
    getInventoryByCurrencyId
        (runSteps posStore
          (sellPersistSteps ⟨1, 1, 100, 80⟩ ⟨1, 40, 90, 3600, none⟩ "2025-01-02") 1) 1 =
      some ⟨1, 1, 100 - 40, 80⟩ ∧
    (runSteps posStore
        (sellPersistSteps ⟨1, 1, 100, 80⟩ ⟨1, 40, 90, 3600, none⟩ "2025-01-02")
        1).transactions = posStore.transactions ∧
    (runSteps posStore
        (sellPersistSteps ⟨1, 1, 100, 80⟩ ⟨1, 40, 90, 3600, none⟩ "2025-01-02")
        1).stats = posStore.stats :=
  sell_partial_write_shape posStore ⟨1, 40, 90, 3600, none⟩ "2025-01-02" ⟨1, 1, 100, 80⟩
    (by decide) (by decide) (by decide)

/-- Counterexample to C6 as stated: if the transaction-insert step of a
sell fails right after the inventory write, the observable store is not
the untouched original: the position is already reduced to 60 while the
transaction log is still empty. -/
theorem sell_atomicity_counterexample :
    getInventoryByCurrencyId
      (runSteps posStore
        (sellPersistSteps ⟨1, 1, 100, 80⟩ ⟨1, 40, 90, 3600, none⟩ "2025-01-02") 1) 1 =
      some ⟨1, 1, 60, 80⟩ ∧
    (runSteps posStore
        (sellPersistSteps ⟨1, 1, 100, 80⟩ ⟨1, 40, 90, 3600, none⟩ "2025-01-02")
        1).transactions = [] ∧
    getInventoryByCurrencyId posStore 1 = some ⟨1, 1, 100, 80⟩ ∧
    ((60 : ℚ) ≠ 100) := by
  refine ⟨?_, rfl, by decide, by norm_num⟩
  norm_num [runSteps, sellPersistSteps, updateInventoryItem, getInventoryByCurrencyId,
    posStore, List.find?]

/-- Witness for the amended C7: holding 10, a buy of -15 at rate 2 is
accepted and persists the negative amount 10 + -15. -/
theorem buy_no_positivity_validation_witness :
    (processBuy oddStore ⟨1, -15, 2, -30, none⟩).2 =
      BuyOutcome.created ⟨1, TxType.BUY, -15, 2, -30, none, 0⟩ ∧
    getInventoryByCurrencyId (processBuy oddStore ⟨1, -15, 2, -30, none⟩).1 1 =
      some ⟨1, 1, 10 + -15, 2⟩ :=
  buy_no_positivity_validation oddStore ⟨1, -15, 2, -30, none⟩ ⟨1, 7⟩ ⟨1, 1, 10, 5⟩
    (by decide) (by decide) (by decide) (by norm_num)

/-- Counterexample to C7 as stated: the buy of -15 onto holdings of 10 is
not rejected with a validation error; it is created and leaves the
position at the negative amount -5. -/
theorem buy_validation_counterexample :
    (processBuy oddStore ⟨1, -15, 2, -30, none⟩).2 =
      BuyOutcome.created ⟨1, TxType.BUY, -15, 2, -30, none, 0⟩ ∧
    getInventoryByCurrencyId (processBuy oddStore ⟨1, -15, 2, -30, none⟩).1 1 =
      some ⟨1, 1, -5, 2⟩ ∧
    ((-5 : ℚ) < 0) := by
  refine ⟨?_, ?_, by norm_num⟩
  · exact (processBuy_created oddStore ⟨1, -15, 2, -30, none⟩ ⟨1, 7⟩ (by decide)).1
  · norm_num [processBuy, getCurrency, getInventoryByCurrencyId, updateInventoryItem,
      createTransaction, oddStore, List.find?]

/-- Witness for the amended C8 on concrete ledgers. -/
theorem reset_state_witness :
    (resetInventory oddStore).transactions = [] ∧
    getInventoryByCurrencyId (resetInventory oddStore) 1 = some ⟨1, 1, 0, 5⟩ ∧
    getDailyStats (resetInventory statStore) "2025-01-02" = some ⟨"2025-01-02", 0, 0⟩ ∧
    resetInventory (resetInventory oddStore) = resetInventory oddStore :=
  ⟨reset_state.1 oddStore,
   reset_state.2.1 oddStore 1 ⟨1, 1, 10, 5⟩ (by decide),
   reset_state.2.2.1 statStore "2025-01-02" ⟨"2025-01-02", 5, 3⟩ (by decide),
   reset_state.2.2.2 oddStore⟩

/-- Counterexample to C8 as stated: the market rate is 7 but after the
reset the position's avgBuyPrice is still its old value 5, not 7. -/
theorem reset_counterexample :
    getCurrency oddStore 1 = some ⟨1, 7⟩ ∧
    getInventoryByCurrencyId (resetInventory oddStore) 1 = some ⟨1, 1, 0, 5⟩ ∧
    ((5 : ℚ) ≠ 7) := by
  exact ⟨by decide, by decide, by decide⟩

/-- Witness for the amended C9 on concrete requests. -/
theorem transaction_total_passthrough_witness :
    (∃ t : Txn, (processBuy usdStore ⟨1, 2, 3, 100, none⟩).2 = BuyOutcome.created t ∧
      t.total = 100) ∧
    (∃ t : Txn, (processSell posStore ⟨1, 40, 90, 999, none⟩ "2025-01-02").2 =
      SellOutcome.created t ∧ t.total = 999) :=
  ⟨transaction_total_passthrough.1 usdStore ⟨1, 2, 3, 100, none⟩ ⟨1, 82⟩ (by decide),
   transaction_total_passthrough.2 posStore ⟨1, 40, 90, 999, none⟩ "2025-01-02"
     ⟨1, 1, 100, 80⟩ (by decide) (by decide)⟩

/-- Counterexample to C9 as stated: a buy of 2 at rate 3 with
caller-supplied total 100 stores total 100, although 2 * 3 is 6. -/
theorem total_passthrough_counterexample :
    (processBuy usdStore ⟨1, 2, 3, 100, none⟩).2 =
      BuyOutcome.created ⟨1, TxType.BUY, 2, 3, 100, none, 0⟩ ∧
    ((100 : ℚ) ≠ 2 * 3) := by
  refine ⟨?_, by norm_num⟩
  exact (processBuy_created usdStore ⟨1, 2, 3, 100, none⟩ ⟨1, 82⟩ (by decide)).1

/-- Witness for C10: upserting ⟨date, 9, 1⟩ over a stored ⟨date, 5, 3⟩
replaces both columns, and another date is untouched. -/
theorem daily_stats_upsert_replaces_witness :
    getDailyStats (createOrUpdateDailyStats statStore ⟨"2025-01-02", 9, 1⟩)
        "2025-01-02" = some ⟨"2025-01-02", 9, 1⟩ ∧
    getDailyStats (createOrUpdateDailyStats statStore ⟨"2025-01-02", 9, 1⟩)
        "2025-01-03" = getDailyStats statStore "2025-01-03" :=
  ⟨(daily_stats_upsert_replaces statStore ⟨"2025-01-02", 9, 1⟩).1,
   (daily_stats_upsert_replaces statStore ⟨"2025-01-02", 9, 1⟩).2 "2025-01-03"
     (by decide)⟩

end Fx
